import Mathlib

/-!
Verification of the `license-cli` lookup-and-render pipeline (`src/main.rs`).

The program is embedded shallowly:
* `Json` models `serde_json::Value`; `jGet` models square-bracket indexing
  (which yields `Null` on a missing key or a non-object receiver), and
  `Json.as_str` / `Json.as_arr` / `Json.as_bool` model `as_str` / `as_array` /
  `as_bool`.
* HTTP calls are abstracted by an `Env` record giving the outcome of each GET
  (`HttpResult`: transport error at `send`, decode error at `.json()`, or a
  parsed body), the outcome of the interactive picker, and the outcome of
  `fs::write`.
* `runMain` mirrors `main` line by line, producing the ordered trace of
  observable events (printed chunks, detail fetches, file writes) together with
  the run's `Outcome` (`ok`, `err e`, or `panicked msg` for `.expect`).
* `display_preview` mirrors the `display_preview` function; ANSI colour/style
  escapes (the `colored` crate) are elided, each `println!` becomes one chunk.
-/

/-- Model of `serde_json::Value`. Numbers are irrelevant to every claim and are
kept abstract as their printed form. -/
inductive Json where
  | null
  | bool (b : Bool)
  | num (repr : String)
  | str (s : String)
  | arr (elems : List Json)
  | obj (fields : List (String × Json))

/-- `value[key]` on a `serde_json::Value`: field lookup on objects, `Null` on a
missing key or a non-object receiver. -/
def jGet (j : Json) (key : String) : Json :=
  match j with
  | .obj fields =>
      match fields.find? (fun kv => kv.1 == key) with
      | some kv => kv.2
      | none => .null
  | _ => .null

/-- `Value::as_str`. -/
def Json.as_str : Json → Option String
  | .str s => some s
  | _ => none

/-- `Value::as_array`. -/
def Json.as_arr : Json → Option (List Json)
  | .arr xs => some xs
  | _ => none

/-- `Value::as_bool`. -/
def Json.as_bool : Json → Option Bool
  | .bool b => some b
  | _ => none

/-- The `AppError` enum of `main.rs`; the wrapped foreign errors are carried as
their message strings. -/
inductive AppError where
  | RequestFailed (msg : String)
  | MiddleWareRequestFailed (msg : String)
  | MalformedLicenseData
  | LicenseNotFound (id : String)
  | FileWriteError (msg : String)
deriving DecidableEq

/-- Outcome of one HTTP GET as `main.rs` observes it: `send()` may fail
(middleware error), `.json()` may fail (decode error), or a body is parsed. -/
inductive HttpResult where
  | success (body : Json)
  | sendError (msg : String)
  | decodeError (msg : String)

/-- Outcome of `Picker::pick()` in `fuzzy_find_license`: `Ok(Some(v))` for a
confirmed selection, `Ok(None)` when the user quits without selecting, and
`Err(e)` for a picker I/O error. -/
inductive PickResult where
  | picked (v : Json)
  | cancelled
  | ioError (msg : String)

/-- Observable events of a run, in order: a `println!` chunk, a detail-fetch
GET, an (attempted) `fs::write`. -/
inductive Event where
  | printed (chunk : String)
  | detailFetch (url : String)
  | fileWrite (path : String) (content : String)
deriving DecidableEq

/-- How the process run ends: `main` returns `Ok`, returns an error (non-zero
exit with the error message), or panics via `.expect`. -/
inductive Outcome where
  | ok
  | err (e : AppError)
  | panicked (msg : String)
deriving DecidableEq

/-- The parsed CLI arguments (`Cli` struct): optional positional SPDX
identifier, optional output path (`-o`), full-text flag (`-f`). -/
structure Cli where
  spdx_identifier : Option String
  output : Option String
  full_text : Bool

/-- The run's environment: the registry GET's outcome, each detail GET's
outcome by URL, the picker's outcome, and `fs::write`'s outcome by path and
content (`some msg` is an I/O error, `none` is success). -/
structure Env where
  registryResponse : HttpResult
  detailResponse : String → HttpResult
  pickResult : PickResult
  writeResult : String → String → Option String

/-- The label the injector closure builds for each registry entry:
`"{licenseId} - {name}"`, with `"Malformed license"` for a non-string field. -/
def licenseLabel (e : Json) : String :=
  ((jGet e "licenseId").as_str.getD "Malformed license") ++ " - " ++
    ((jGet e "name").as_str.getD "Malformed license")

/-- `fuzzy_find_license`: a confirmed pick yields `Ok(Some(v))`, quitting
without a selection yields `Ok(None)`, and a picker error is mapped to
`AppError::LicenseNotFound("No License selected.")`. The injected candidate
list only feeds the labels and does not alter the outcome. -/
def fuzzy_find_license (licenses : List Json) (pick : PickResult) :
    Except AppError (Option Json) :=
  let _labels := licenses.map licenseLabel
  match pick with
  | .picked v => .ok (some v)
  | .cancelled => .ok none
  | .ioError _ => .error (.LicenseNotFound "No License selected.")

/-- `text.chars().take(n).collect::<String>()`: the string of the first `n`
Unicode scalar values. -/
def charsTake (s : String) (n : Nat) : String :=
  ⟨s.data.take n⟩

/-- The identifier branch of the selector in `main`:
`licenses.iter().find(|l| l["licenseId"].as_str() == Some(&id))`. -/
def selectById (licenses : List Json) (id : String) : Option Json :=
  licenses.find? (fun l => (jGet l "licenseId").as_str == some id)

/-- The metadata chunks `display_preview` prints before the license text:
header, name, SPDX id, OSI approval, the optional deprecation line, and the
optional see-also block. -/
def metaLines (license_details : Json) : List String :=
  ["\nLicense Preview:", "----------------",
   "Name: " ++ ((jGet license_details "name").as_str.getD "N/A"),
   "SPDX ID: " ++ ((jGet license_details "licenseId").as_str.getD "N/A"),
   "Is OSI Approved: " ++
     (if (jGet license_details "isOsiApproved").as_bool.getD false
      then "Yes" else "No")]
  ++ (match (jGet license_details "isDeprecatedLicenseId").as_bool with
      | some deprecated => ["Deprecated: " ++ (if deprecated then "Yes" else "No")]
      | none => [])
  ++ (match (jGet license_details "seeAlso").as_arr with
      | some see_also =>
          "See Also:" :: see_also.map (fun url => "  - " ++ (url.as_str.getD "N/A"))
      | none => [])

/-- The chunks `display_preview` prints, in order, colour codes elided; a
`println!("\n{}", x)` chunk is rendered with its leading newline. -/
def display_preview (license_details : Json) (full_text : Bool) : List String :=
  metaLines license_details
  ++ (match (jGet license_details "licenseText").as_str with
      | some text =>
          if full_text then
            ["", "Full License Text", text]
          else
            ["", "License Text Preview (first 200 chars)", charsTake text 200, "..."]
      | none => ["License text not available"])

/-- The `if let Some(out) = args.output` block at the end of `main`: write the
license text when it is a string (recording the attempted write and, on
success, the confirmation line; on failure, `FileWriteError`), otherwise print
that the text is not available. -/
def persistStage (writeResult : String → String → Option String)
    (output : Option String) (license_details : Json) : List Event × Outcome :=
  match output with
  | none => ([], .ok)
  | some out =>
      match (jGet license_details "licenseText").as_str with
      | some license_text =>
          (match writeResult out license_text with
           | none =>
               ([.fileWrite out license_text,
                 .printed ("\nLicense text written to: " ++ out)], .ok)
           | some ioMsg =>
               ([.fileWrite out license_text], .err (.FileWriteError ioMsg)))
      | none =>
          ([.printed "License text not available for writing to file"], .ok)

/-- `main`, step by step: registry GET, extraction of the `licenses` array,
selection (exact identifier scan, or the fuzzy picker whose `None` is unwrapped
with `.expect("No license selected")`), extraction of `detailsUrl`, the detail
GET, `display_preview`, and the optional file write. Returns the ordered event
trace and the run's outcome. -/
def runMain (env : Env) (args : Cli) : List Event × Outcome :=
  match env.registryResponse with
  | .sendError m => ([], .err (.MiddleWareRequestFailed m))
  | .decodeError m => ([], .err (.RequestFailed m))
  | .success licenses_json =>
      match (jGet licenses_json "licenses").as_arr with
      | none => ([], .err .MalformedLicenseData)
      | some licenses =>
          let selected : Except AppError (Option Json) :=
            match args.spdx_identifier with
            | some spdx_identifier =>
                match selectById licenses spdx_identifier with
                | some l => .ok (some l)
                | none => .error (.LicenseNotFound spdx_identifier)
            | none => fuzzy_find_license licenses env.pickResult
          match selected with
          | .error e => ([], .err e)
          | .ok none => ([], .panicked "No license selected")
          | .ok (some license) =>
              match (jGet license "detailsUrl").as_str with
              | none => ([], .err .MalformedLicenseData)
              | some details_url =>
                  let pre := [Event.printed "Fetching license details...",
                              Event.detailFetch details_url]
                  match env.detailResponse details_url with
                  | .sendError m => (pre, .err (.MiddleWareRequestFailed m))
                  | .decodeError m => (pre, .err (.RequestFailed m))
                  | .success license_details =>
                      let shown :=
                        (display_preview license_details args.full_text).map
                          Event.printed
                      let tail :=
                        persistStage env.writeResult args.output license_details
                      (pre ++ shown ++ tail.1, tail.2)

/-- The filesystem as a map from path to content (`None` = no such file). -/
def FS := String → Option String

/-- `fs::write`: create or truncate the file at `path` with exactly `content`. -/
def fsWrite (fs : FS) (path content : String) : FS :=
  fun p => if p = path then some content else fs p

/-- `fs::read_to_string`. -/
def fsRead (fs : FS) (path : String) : Option String :=
  fs path

/-- The persist operation of `main` acting on the filesystem model: when
`licenseText` is a string it is written verbatim to `path`, otherwise nothing
is written. -/
def persist (fs : FS) (license_details : Json) (path : String) : Option FS :=
  ((jGet license_details "licenseText").as_str).map (fun t => fsWrite fs path t)

/-! ## Concrete sample values used by witnesses and counterexamples -/

/-- A well-formed registry summary for MIT. -/
def demoMIT : Json :=
  .obj [("licenseId", .str "MIT"), ("name", .str "MIT License"),
        ("detailsUrl", .str "https://spdx.org/licenses/MIT.json")]

/-- A well-formed registry summary for Apache-2.0. -/
def demoApache : Json :=
  .obj [("licenseId", .str "Apache-2.0"), ("name", .str "Apache License 2.0"),
        ("detailsUrl", .str "https://spdx.org/licenses/Apache-2.0.json")]

/-- A second summary that also carries `licenseId = "MIT"`. -/
def demoMITDup : Json :=
  .obj [("licenseId", .str "MIT"), ("name", .str "MIT duplicate"),
        ("detailsUrl", .str "https://example.org/dup.json")]

/-- A sample registry list. -/
def demoRegistry : List Json := [demoApache, demoMIT, demoMITDup]

/-- A registry body wrapping `demoRegistry` under the `licenses` key. -/
def demoRegistryBody : Json := .obj [("licenses", .arr demoRegistry)]

/-- A detail payload with a license text. -/
def demoDetail : Json :=
  .obj [("name", .str "MIT License"), ("licenseId", .str "MIT"),
        ("isOsiApproved", .bool true),
        ("licenseText", .str "Permission is hereby granted, free of charge")]

/-- A detail payload without a `licenseText` field. -/
def demoDetailNoText : Json :=
  .obj [("name", .str "MIT License"), ("licenseId", .str "MIT")]

/-! ## Helper lemmas about the selector -/

/-- Anything the identifier scan returns is in the list and matches exactly. -/
theorem selectById_matches {licenses : List Json} {x : String} {l : Json}
    (h : selectById licenses x = some l) :
    l ∈ licenses ∧ (jGet l "licenseId").as_str = some x := by
  unfold selectById at h
  have hmem := List.mem_of_find?_eq_some h
  have hp := List.find?_some h
  simp only [beq_iff_eq] at hp
  exact ⟨hmem, hp⟩

/-- When a match exists, the scan returns the first one in list order. -/
theorem selectById_first {licenses : List Json} {x : String}
    (hex : ∃ l ∈ licenses, (jGet l "licenseId").as_str = some x) :
    ∃ pre l post, licenses = pre ++ l :: post ∧
      selectById licenses x = some l ∧
      (jGet l "licenseId").as_str = some x ∧
      ∀ l' ∈ pre, (jGet l' "licenseId").as_str ≠ some x := by
  induction licenses with
  | nil => simp at hex
  | cons hd tl ih =>
      by_cases hhd : (jGet hd "licenseId").as_str = some x
      · exact ⟨[], hd, tl, rfl, by simp [selectById, List.find?_cons, hhd], hhd,
          by simp⟩
      · have hex' : ∃ l ∈ tl, (jGet l "licenseId").as_str = some x := by
          rcases hex with ⟨l, hl, hlx⟩
          rcases List.mem_cons.mp hl with rfl | hl'
          · exact absurd hlx hhd
          · exact ⟨l, hl', hlx⟩
        obtain ⟨pre, l, post, heq, hsel, hlx, hpre⟩ := ih hex'
        refine ⟨hd :: pre, l, post, by simp [heq], ?_, hlx, ?_⟩
        · unfold selectById at hsel ⊢
          simpa [List.find?_cons, hhd] using hsel
        · intro l' hl'
          rcases List.mem_cons.mp hl' with rfl | hl''
          · exact hhd
          · exact hpre l' hl''

/-- C1: if the registry list contains a summary whose `licenseId` equals the
supplied identifier `x` (exact, case-sensitive), the identifier scan of `main`
selects the first such summary in list order — the list splits as
`pre ++ l :: post` with no match in `pre` — and the scan never returns a
summary whose `licenseId` differs from `x`. -/
theorem C1_selectById_first_exact_match (licenses : List Json) (x : String)
    (hex : ∃ l ∈ licenses, (jGet l "licenseId").as_str = some x) :
    (∃ pre l post, licenses = pre ++ l :: post ∧
        selectById licenses x = some l ∧
        (jGet l "licenseId").as_str = some x ∧
        ∀ l' ∈ pre, (jGet l' "licenseId").as_str ≠ some x) ∧
    (∀ l, selectById licenses x = some l →
        (jGet l "licenseId").as_str = some x) :=
  ⟨selectById_first hex, fun _ h => (selectById_matches h).2⟩

/-- Witness for C1 on the sample registry: "MIT" occurs twice and the scan
picks the first occurrence. -/
theorem C1_witness :
    (∃ pre l post, demoRegistry = pre ++ l :: post ∧
        selectById demoRegistry "MIT" = some l ∧
        (jGet l "licenseId").as_str = some "MIT" ∧
        ∀ l' ∈ pre, (jGet l' "licenseId").as_str ≠ some "MIT") ∧
    (∀ l, selectById demoRegistry "MIT" = some l →
        (jGet l "licenseId").as_str = some "MIT") :=
  C1_selectById_first_exact_match demoRegistry "MIT"
    ⟨demoMIT, by simp [demoRegistry], rfl⟩

/-- C3: when `licenseText` is a string `t`, full-text mode prints the metadata
followed by the entire `t`; preview mode prints the metadata followed by the
first-200-characters preview and the `"..."` truncation marker. The preview is
at most 200 characters, it is an initial segment of `t` (so nothing but a tail
is dropped), and when `t` has at most 200 characters the preview equals the
whole text. -/
theorem C3_display_preview_text_modes (d : Json) (t : String)
    (ht : (jGet d "licenseText").as_str = some t) :
    display_preview d true = metaLines d ++ ["", "Full License Text", t] ∧
    display_preview d false =
      metaLines d ++ ["", "License Text Preview (first 200 chars)",
        charsTake t 200, "..."] ∧
    (charsTake t 200).length ≤ 200 ∧
    (∃ rest, t.data = (charsTake t 200).data ++ rest) ∧
    (t.length ≤ 200 → charsTake t 200 = t) := by
  refine ⟨by simp [display_preview, ht], by simp [display_preview, ht], ?_, ?_, ?_⟩
  · show (t.data.take 200).length ≤ 200
    simp [List.length_take]
  · exact ⟨t.data.drop 200, (List.take_append_drop 200 t.data).symm⟩
  · intro hlen
    show String.mk (t.data.take 200) = t
    cases t with
    | mk data => exact congrArg String.mk (List.take_of_length_le hlen)

/-- Witness for C3 at `demoDetail`, whose text is shorter than 200 chars. -/
theorem C3_witness :
    display_preview demoDetail true =
      metaLines demoDetail ++
        ["", "Full License Text",
         "Permission is hereby granted, free of charge"] ∧
    display_preview demoDetail false =
      metaLines demoDetail ++
        ["", "License Text Preview (first 200 chars)",
         charsTake "Permission is hereby granted, free of charge" 200, "..."] ∧
    (charsTake "Permission is hereby granted, free of charge" 200).length ≤ 200 ∧
    (∃ rest, "Permission is hereby granted, free of charge".data =
      (charsTake "Permission is hereby granted, free of charge" 200).data ++ rest) ∧
    ("Permission is hereby granted, free of charge".length ≤ 200 →
      charsTake "Permission is hereby granted, free of charge" 200 =
        "Permission is hereby granted, free of charge") :=
  C3_display_preview_text_modes demoDetail
    "Permission is hereby granted, free of charge" rfl

/-- C9: the render is a pure function of the detail value and the full-text
flag. Formally, its output depends on nothing beyond the six fields it reads:
two details agreeing on `name`, `licenseId`, `isOsiApproved`,
`isDeprecatedLicenseId`, `seeAlso` and `licenseText` render identically for the
same flag; two runs on the very same inputs are the special case `d1 = d2`. -/
theorem C9_display_preview_pure (d1 d2 : Json) (ft : Bool)
    (hname : jGet d1 "name" = jGet d2 "name")
    (hid : jGet d1 "licenseId" = jGet d2 "licenseId")
    (hosi : jGet d1 "isOsiApproved" = jGet d2 "isOsiApproved")
    (hdep : jGet d1 "isDeprecatedLicenseId" = jGet d2 "isDeprecatedLicenseId")
    (hsee : jGet d1 "seeAlso" = jGet d2 "seeAlso")
    (htext : jGet d1 "licenseText" = jGet d2 "licenseText") :
    display_preview d1 ft = display_preview d2 ft := by
  simp only [display_preview, metaLines, hname, hid, hosi, hdep, hsee, htext]

/-- A detail value differing from `demoDetail` only in a field the render never
reads. -/
def demoDetailExtra : Json :=
  .obj [("name", .str "MIT License"), ("licenseId", .str "MIT"),
        ("isOsiApproved", .bool true),
        ("licenseText", .str "Permission is hereby granted, free of charge"),
        ("unreadField", .str "different")]

/-- Witness for C9: two syntactically different details agreeing on the six
read fields render identically. -/
theorem C9_witness :
    jGet demoDetail "name" = jGet demoDetailExtra "name" ∧
    jGet demoDetail "licenseText" = jGet demoDetailExtra "licenseText" ∧
    display_preview demoDetail false = display_preview demoDetailExtra false :=
  ⟨rfl, rfl, C9_display_preview_pure demoDetail demoDetailExtra false
    rfl rfl rfl rfl rfl rfl⟩

/-- C7: when `licenseText` is the string `t`, persisting it to `path` writes
`t` verbatim, and reading `path` back from the resulting filesystem yields
exactly `t` — content identical to the field, nothing added or altered. -/
theorem C7_persist_roundtrip (fs : FS) (d : Json) (path t : String)
    (ht : (jGet d "licenseText").as_str = some t) :
    ∃ fs', persist fs d path = some fs' ∧ fsRead fs' path = some t := by
  refine ⟨fsWrite fs path t, ?_, ?_⟩
  · simp [persist, ht]
  · simp [fsRead, fsWrite]

/-- Witness for C7: round-trip on an initially empty filesystem. -/
theorem C7_witness :
    ∃ fs', persist (fun _ => none) demoDetail "LICENSE" = some fs' ∧
      fsRead fs' "LICENSE" =
        some "Permission is hereby granted, free of charge" :=
  C7_persist_roundtrip (fun _ => none) demoDetail "LICENSE"
    "Permission is hereby granted, free of charge" rfl

/-- C5: when the registry list holds no summary whose `licenseId` equals the
supplied identifier, the run fails with `LicenseNotFound` carrying that
identifier, its event trace is empty — in particular no detail fetch (second
GET) is performed. -/
theorem C5_absent_id_not_found (env : Env) (args : Cli) (x : String)
    (body : Json) (licenses : List Json)
    (hid : args.spdx_identifier = some x)
    (hreg : env.registryResponse = .success body)
    (hlic : (jGet body "licenses").as_arr = some licenses)
    (habs : ∀ l ∈ licenses, ¬ (jGet l "licenseId").as_str = some x) :
    runMain env args = ([], .err (.LicenseNotFound x)) ∧
    ∀ u, Event.detailFetch u ∉ (runMain env args).1 := by
  have hfind : selectById licenses x = none := by
    unfold selectById
    rw [List.find?_eq_none]
    intro l hl
    simpa using habs l hl
  have hrun : runMain env args = ([], .err (.LicenseNotFound x)) := by
    simp [runMain, hreg, hlic, hid, hfind]
  exact ⟨hrun, fun u => by simp [hrun]⟩

/-- An environment whose registry GET succeeds with the sample registry and
whose every detail GET succeeds with the sample detail. -/
def happyEnv : Env :=
  ⟨.success demoRegistryBody, fun _ => .success demoDetail, .cancelled,
   fun _ _ => none⟩

/-- Witness for C5: "GPL-3.0-only" is absent from the sample registry. -/
theorem C5_witness :
    runMain happyEnv ⟨some "GPL-3.0-only", some "LICENSE", false⟩ =
      ([], .err (.LicenseNotFound "GPL-3.0-only")) ∧
    ∀ u, Event.detailFetch u ∉
      (runMain happyEnv ⟨some "GPL-3.0-only", some "LICENSE", false⟩).1 :=
  C5_absent_id_not_found happyEnv ⟨some "GPL-3.0-only", some "LICENSE", false⟩
    "GPL-3.0-only" demoRegistryBody demoRegistry rfl rfl rfl (by decide)

/-- C6: a registry body whose `licenses` field is absent or not an array makes
the run fail with `MalformedLicenseData` on an empty trace — before any
selection or detail fetch; a transport failure of the registry GET instead
yields the request-failed error from the middleware, and a body-decode failure
the request-failed error from the client. -/
theorem C6_malformed_registry (env : Env) (args : Cli) :
    (∀ body, env.registryResponse = .success body →
        (jGet body "licenses").as_arr = none →
        runMain env args = ([], .err .MalformedLicenseData)) ∧
    (∀ m, env.registryResponse = .sendError m →
        runMain env args = ([], .err (.MiddleWareRequestFailed m))) ∧
    (∀ m, env.registryResponse = .decodeError m →
        runMain env args = ([], .err (.RequestFailed m))) := by
  refine ⟨fun body hreg hmal => ?_, fun m hreg => ?_, fun m hreg => ?_⟩
  · simp [runMain, hreg, hmal]
  · simp [runMain, hreg]
  · simp [runMain, hreg]

/-- An environment whose registry GET succeeds but returns a body without a
`licenses` array. -/
def malformedEnv : Env :=
  ⟨.success (.obj [("licenses", .str "oops")]), fun _ => .success demoDetail,
   .cancelled, fun _ _ => none⟩

/-- Witness for C6: the malformed body is rejected with an empty trace. -/
theorem C6_witness :
    runMain malformedEnv ⟨some "MIT", none, false⟩ =
      ([], .err .MalformedLicenseData) :=
  (C6_malformed_registry malformedEnv ⟨some "MIT", none, false⟩).1
    (.obj [("licenses", .str "oops")]) rfl rfl

/-- C10: when the selected summary has no string `detailsUrl`, the run fails
with `MalformedLicenseData` on an empty trace — before the detail fetch is
attempted. -/
theorem C10_malformed_details_url (env : Env) (args : Cli) (x : String)
    (body : Json) (licenses : List Json) (l : Json)
    (hid : args.spdx_identifier = some x)
    (hreg : env.registryResponse = .success body)
    (hlic : (jGet body "licenses").as_arr = some licenses)
    (hsel : selectById licenses x = some l)
    (hurl : (jGet l "detailsUrl").as_str = none) :
    runMain env args = ([], .err .MalformedLicenseData) ∧
    ∀ u, Event.detailFetch u ∉ (runMain env args).1 := by
  have hrun : runMain env args = ([], .err .MalformedLicenseData) := by
    simp [runMain, hreg, hlic, hid, hsel, hurl]
  exact ⟨hrun, fun u => by simp [hrun]⟩

/-- A summary without a `detailsUrl` field. -/
def demoNoUrl : Json :=
  .obj [("licenseId", .str "BadURL"), ("name", .str "No url")]

/-- An environment whose registry holds only `demoNoUrl`. -/
def noUrlEnv : Env :=
  ⟨.success (.obj [("licenses", .arr [demoNoUrl])]),
   fun _ => .success demoDetail, .cancelled, fun _ _ => none⟩

/-- Witness for C10: selecting the summary without `detailsUrl` fails before
any detail fetch. -/
theorem C10_witness :
    runMain noUrlEnv ⟨some "BadURL", none, false⟩ =
      ([], .err .MalformedLicenseData) ∧
    ∀ u, Event.detailFetch u ∉
      (runMain noUrlEnv ⟨some "BadURL", none, false⟩).1 :=
  C10_malformed_details_url noUrlEnv ⟨some "BadURL", none, false⟩ "BadURL"
    (.obj [("licenses", .arr [demoNoUrl])]) [demoNoUrl] demoNoUrl
    rfl rfl rfl rfl rfl

/-- C4: when the fetched detail has no string `licenseText` and an output path
was supplied, the run performs no file write at all, prints the
"not available" message instead, and still ends with `Ok` — the missing text is
not fatal. -/
theorem C4_missing_text_skips_write (env : Env) (args : Cli) (x : String)
    (body : Json) (licenses : List Json) (l : Json) (url : String) (d : Json)
    (out : String)
    (hid : args.spdx_identifier = some x)
    (hreg : env.registryResponse = .success body)
    (hlic : (jGet body "licenses").as_arr = some licenses)
    (hsel : selectById licenses x = some l)
    (hurl : (jGet l "detailsUrl").as_str = some url)
    (hdet : env.detailResponse url = .success d)
    (hnotext : (jGet d "licenseText").as_str = none)
    (hout : args.output = some out) :
    (runMain env args).2 = .ok ∧
    (∀ p c, Event.fileWrite p c ∉ (runMain env args).1) ∧
    Event.printed "License text not available for writing to file" ∈
      (runMain env args).1 := by
  have hrun : runMain env args =
      ([Event.printed "Fetching license details...", Event.detailFetch url]
        ++ (display_preview d args.full_text).map Event.printed
        ++ [Event.printed "License text not available for writing to file"],
       .ok) := by
    simp [runMain, hreg, hlic, hid, hsel, hurl, hdet, persistStage, hout,
      hnotext]
  rw [hrun]
  refine ⟨rfl, ?_, ?_⟩
  · intro p c
    simp [List.mem_append]
  · simp

/-- An environment whose detail GET returns a payload without `licenseText`. -/
def noTextEnv : Env :=
  ⟨.success demoRegistryBody, fun _ => .success demoDetailNoText, .cancelled,
   fun _ _ => none⟩

/-- Witness for C4: a run with an output path and a detail without text. -/
theorem C4_witness :
    (runMain noTextEnv ⟨some "MIT", some "out.txt", false⟩).2 = .ok ∧
    (∀ p c, Event.fileWrite p c ∉
      (runMain noTextEnv ⟨some "MIT", some "out.txt", false⟩).1) ∧
    Event.printed "License text not available for writing to file" ∈
      (runMain noTextEnv ⟨some "MIT", some "out.txt", false⟩).1 :=
  C4_missing_text_skips_write noTextEnv ⟨some "MIT", some "out.txt", false⟩
    "MIT" demoRegistryBody demoRegistry demoMIT
    "https://spdx.org/licenses/MIT.json" demoDetailNoText "out.txt"
    rfl rfl rfl rfl rfl rfl rfl rfl

/-- Environment for an interactive run in which the user quits the picker
without selecting (the picker returns `Ok(None)`). -/
def cancelEnv : Env :=
  ⟨.success demoRegistryBody, fun _ => .success demoDetail, .cancelled,
   fun _ _ => none⟩

/-- C2 (evaluating `main` at the failing input): the picker loop itself does
report cancellation as the distinct no-selection outcome `Ok(None)` — not as
`LicenseNotFound` and not as a fetch error — but `main` unwraps that value with
`.expect("No license selected")`, so the run terminates by panicking rather
than gracefully; moreover a picker I/O error is folded into
`LicenseNotFound("No License selected.")`. -/
theorem C2_cancellation_panics :
    fuzzy_find_license demoRegistry .cancelled = .ok none ∧
    runMain cancelEnv ⟨none, none, false⟩ =
      ([], .panicked "No license selected") ∧
    fuzzy_find_license demoRegistry (.ioError "broken terminal") =
      .error (.LicenseNotFound "No License selected.") :=
  ⟨rfl, rfl, rfl⟩

/-- Environment for a run that succeeds all the way to the file write, which
then fails with an I/O error. -/
def writeFailEnv : Env :=
  ⟨.success demoRegistryBody, fun _ => .success demoDetail, .cancelled,
   fun _ _ => some "disk full"⟩

/-- Counterexample to C8 as stated: a run whose file-write stage fails has
already printed the rendered preview (header and license-text preview chunks
are in the trace) before the `FileWriteError` is raised, so it does not
surface only the error message. -/
theorem C8_counterexample :
    (runMain writeFailEnv ⟨some "MIT", some "out.txt", false⟩).2 =
      .err (.FileWriteError "disk full") ∧
    Event.printed "\nLicense Preview:" ∈
      (runMain writeFailEnv ⟨some "MIT", some "out.txt", false⟩).1 ∧
    Event.printed
        (charsTake "Permission is hereby granted, free of charge" 200) ∈
      (runMain writeFailEnv ⟨some "MIT", some "out.txt", false⟩).1 := by
  refine ⟨rfl, ?_, ?_⟩ <;> decide

/-- Outcome classification of the persist stage: it either succeeds or fails
with a `FileWriteError`. -/
theorem persistStage_outcome (w : String → String → Option String)
    (out : Option String) (d : Json) :
    (persistStage w out d).2 = .ok ∨
    ∃ m, (persistStage w out d).2 = .err (.FileWriteError m) := by
  unfold persistStage
  cases out with
  | none => left; rfl
  | some o =>
      cases h : (jGet d "licenseText").as_str with
      | none => left; simp [h]
      | some t =>
          cases hw : w o t with
          | none => left; simp [h, hw]
          | some m => right; exact ⟨m, by simp [h, hw]⟩

/-- Every run either prints nothing beyond the progress line, or ends
successfully, or ends in a `FileWriteError`. -/
theorem runMain_output_classification (env : Env) (args : Cli) :
    (∀ s, Event.printed s ∈ (runMain env args).1 →
       s = "Fetching license details...") ∨
    ((runMain env args).2 = .ok ∨
     ∃ m, (runMain env args).2 = .err (.FileWriteError m)) := by
  rcases hreg : env.registryResponse with body | m | m
  case sendError => left; intro s hs; simp [runMain, hreg] at hs
  case decodeError => left; intro s hs; simp [runMain, hreg] at hs
  case success =>
  rcases harr : (jGet body "licenses").as_arr with _ | licenses
  · left; intro s hs; simp [runMain, hreg, harr] at hs
  rcases hid : args.spdx_identifier with _ | x
  · rcases hpick : env.pickResult with v | _ | _
    case cancelled =>
        left; intro s hs
        simp [runMain, hreg, harr, hid, fuzzy_find_license, hpick] at hs
    case ioError =>
        left; intro s hs
        simp [runMain, hreg, harr, hid, fuzzy_find_license, hpick] at hs
    case picked =>
        rcases hurl : (jGet v "detailsUrl").as_str with _ | url
        · left; intro s hs
          simp [runMain, hreg, harr, hid, fuzzy_find_license, hpick, hurl] at hs
        rcases hdet : env.detailResponse url with d | m | m
        case sendError =>
            left; intro s hs
            simp [runMain, hreg, harr, hid, fuzzy_find_license, hpick, hurl,
              hdet] at hs
            exact hs
        case decodeError =>
            left; intro s hs
            simp [runMain, hreg, harr, hid, fuzzy_find_license, hpick, hurl,
              hdet] at hs
            exact hs
        case success =>
            right
            have hrun : (runMain env args).2 =
                (persistStage env.writeResult args.output d).2 := by
              simp [runMain, hreg, harr, hid, fuzzy_find_license, hpick, hurl,
                hdet]
            rw [hrun]
            exact persistStage_outcome env.writeResult args.output d
  · rcases hsel : selectById licenses x with _ | l
    · left; intro s hs; simp [runMain, hreg, harr, hid, hsel] at hs
    rcases hurl : (jGet l "detailsUrl").as_str with _ | url
    · left; intro s hs; simp [runMain, hreg, harr, hid, hsel, hurl] at hs
    rcases hdet : env.detailResponse url with d | m | m
    case sendError =>
        left; intro s hs
        simp [runMain, hreg, harr, hid, hsel, hurl, hdet] at hs
        exact hs
    case decodeError =>
        left; intro s hs
        simp [runMain, hreg, harr, hid, hsel, hurl, hdet] at hs
        exact hs
    case success =>
        right
        have hrun : (runMain env args).2 =
            (persistStage env.writeResult args.output d).2 := by
          simp [runMain, hreg, harr, hid, hsel, hurl, hdet]
        rw [hrun]
        exact persistStage_outcome env.writeResult args.output d

/-- C8 amended: when a run fails with any error other than `FileWriteError`,
no rendered output precedes the failure — the only chunk that can already have
been printed is the "Fetching license details..." progress line. (A failing
file write, by contrast, happens after the full preview has been printed, as
`C8_counterexample` shows.) -/
theorem C8_amended_no_output_before_error (env : Env) (args : Cli)
    (e : AppError)
    (herr : (runMain env args).2 = .err e)
    (hnotio : ∀ m, e ≠ .FileWriteError m) :
    ∀ s, Event.printed s ∈ (runMain env args).1 →
      s = "Fetching license details..." := by
  rcases runMain_output_classification env args with h | h | ⟨m, hm⟩
  · exact h
  · rw [herr] at h; cases h
  · rw [herr] at hm
    injection hm with h1
    exact absurd h1 (hnotio m)

/-- Environment whose detail GET body fails to decode. -/
def detailFailEnv : Env :=
  ⟨.success demoRegistryBody, fun _ => .decodeError "invalid json", .cancelled,
   fun _ _ => none⟩

/-- Witness for the amended C8: a run whose detail fetch fails has printed
nothing but the progress line, whose chunk the theorem pins down. -/
theorem C8_amended_witness :
    runMain detailFailEnv ⟨some "MIT", some "out.txt", false⟩ =
      ([Event.printed "Fetching license details...",
        Event.detailFetch "https://spdx.org/licenses/MIT.json"],
       .err (.RequestFailed "invalid json")) ∧
    "Fetching license details..." = "Fetching license details..." :=
  ⟨rfl,
   C8_amended_no_output_before_error detailFailEnv
     ⟨some "MIT", some "out.txt", false⟩ (.RequestFailed "invalid json") rfl
     (fun m h => AppError.noConfusion h) "Fetching license details..."
     (by decide)⟩
